import Mathlib

/-!
Verification development for the cpmpy constraint-lowering backends:
the Glasgow Constraint Solver API backend (`glasgowconstraintsolver.py`)
and the MiniZinc textual DSL backend (`minizinc.py`).

The Python sources are shallowly embedded: the solver session state
(variable binding cache, native creation log, emitted instruction list /
accumulated model text) is passed explicitly, native handles and emitted
backend instructions are first-order data, and fallible code paths return
`Except String`.
-/

/-- Unified solver status vocabulary (`ExitStatus` of `solver_interface`,
spec section 3). -/
inductive ExitStatus where
  | NOT_RUN
  | OPTIMAL
  | FEASIBLE
  | UNSATISFIABLE
  | ERROR
  | UNKNOWN
deriving DecidableEq, Repr

/-- A cpmpy decision variable: Boolean (`_BoolVarImpl`, a 0/1 integer) or a
bounded integer (`_IntVarImpl`). Per the spec data model (section 3) a
decision variable carries identity, kind, domain and name only. -/
inductive CPMVar where
  | boolV (name : String)
  | intV (name : String) (lb ub : Int)
deriving DecidableEq, Repr

/-- An atom that the binding layer (`solver_var`) can receive: a numeric
constant, a decision variable, or the negation view (`NegBoolView`) of a
Boolean variable. -/
inductive CPMAtom where
  | num (n : Int)
  | cvar (v : CPMVar)
  | negView (name : String)
deriving DecidableEq, Repr

/-- Keys of a binding cache (`_varmap`). A key can in principle be a
decision variable or a negation view object, mirroring the Python dict
whose keys are arbitrary expression objects. -/
inductive VKey where
  | kvar (v : CPMVar)
  | kview (name : String)
deriving DecidableEq, Repr

/-- Association-list lookup used for the binding caches. -/
def alookup {α β : Type} [DecidableEq α] : List (α × β) → α → Option β
  | [], _ => none
  | (k, v) :: rest, k2 => if k = k2 then some v else alookup rest k2

/-- A native handle of the Glasgow Constraint Solver: a created variable
(identified by creation order), a constant wrapper
(`create_integer_constant`), or the results of the helpers `negate` and
`add_constant`. -/
inductive GHandle where
  | base (id : Nat)
  | constH (n : Int)
  | negate (h : GHandle)
  | addConst (h : GHandle) (k : Int)
deriving DecidableEq, Repr

/-- Integer value of a native handle under an assignment to the created
variables. -/
def evalGH (asg : Nat → Int) : GHandle → Int
  | .base i => asg i
  | .constH n => n
  | .negate h => - evalGH asg h
  | .addConst h k => evalGH asg h + k

/-- Instructions of the Glasgow Constraint Solver API surface used by
`_post_constraint` and `objective` (spec section 6, Backend A). -/
inductive GCSInstr where
  | postOr (hs : List GHandle)
  | postAnd (hs : List GHandle)
  | postImplies (hs : List GHandle)
  | postAndIf (hs : List GHandle) (r : GHandle)
  | postOrIf (hs : List GHandle) (r : GHandle)
  | postImpliesIf (hs : List GHandle) (r : GHandle)
  | postXorIf (hs : List GHandle) (r : GHandle)
  | postEqualsIf (a b r : GHandle)
  | postCompareLessIf (a b r : GHandle) (inclusive : Bool)
  | postEquals (a b : GHandle)
  | postNotEquals (a b : GHandle)
  | postCompareLess (a b : GHandle) (inclusive : Bool)
  | postAbs (a r : GHandle)
  | postArithmetic (a b r : GHandle) (op : String)
  | postLinearEquality (hs : List GHandle) (coefs : List Int) (c : Int)
  | postAlldifferent (hs : List GHandle)
  | minimise (h : GHandle)
  | maximise (h : GHandle)
deriving DecidableEq, Repr

/-- Session state of the Glasgow backend: fresh-handle counter, binding
cache, creation log of native variables (id, name, lower bound, upper
bound) and the list of emitted instructions. -/
structure GState where
  counter : Nat
  varmap : List (VKey × GHandle)
  created : List (Nat × String × Int × Int)
  instrs : List GCSInstr
deriving DecidableEq, Repr

/-- Fresh Glasgow session. -/
def gInit : GState := { counter := 0, varmap := [], created := [], instrs := [] }

/-- Append one emitted instruction. -/
def emit (s : GState) (i : GCSInstr) : GState :=
  { s with instrs := s.instrs ++ [i] }

/-- Domain of a decision variable; Booleans are 0/1 integers
(`glasgowconstraintsolver.py` lines 119-124). -/
def domOf : CPMVar → Int × Int
  | .boolV _ => (0, 1)
  | .intV _ lb ub => (lb, ub)

/-- Name of a decision variable (`str(cpm_var)`). -/
def cpmName : CPMVar → String
  | .boolV n => n
  | .intV n _ _ => n

/-- Binding of a plain decision variable in the Glasgow backend: return the
cached handle, otherwise create a native integer variable over the domain,
log the creation and cache the handle
(`glasgowconstraintsolver.py` lines 117-129). -/
def bindVar (s : GState) (v : CPMVar) : GHandle × GState :=
  match alookup s.varmap (.kvar v) with
  | some h => (h, s)
  | none =>
      let id := s.counter
      let h := GHandle.base id
      let d := domOf v
      (h, { counter := id + 1,
            varmap := (VKey.kvar v, h) :: s.varmap,
            created := s.created ++ [(id, cpmName v, d.1, d.2)],
            instrs := s.instrs })

/-- `solver_var` of the Glasgow backend
(`glasgowconstraintsolver.py` lines 103-129): constants become constant
wrappers, a negation view resolves to `add_constant(negate(handle), 1)` of
the underlying variable (never cached itself), plain variables go through
the binding cache. -/
def gcsSolverVar (s : GState) (a : CPMAtom) : GHandle × GState :=
  match a with
  | .num n => (.constH n, s)
  | .negView nm =>
      let r := bindVar s (.boolV nm)
      (.addConst (.negate r.1) 1, r.2)
  | .cvar v => bindVar s v

/-- `solver_vars`: bind a list of atoms left to right. -/
def gcsSolverVars (s : GState) : List CPMAtom → List GHandle × GState
  | [] => ([], s)
  | a :: rest =>
      let r := gcsSolverVar s a
      let rs := gcsSolverVars r.2 rest
      (r.1 :: rs.1, rs.2)

/-- A flat numeric left-hand side of a canonical comparison: an atom, a
named numeric operator over atoms (`sum`, `sub`, `mul`, `div`, `pow`,
`mod`, `abs`), or a weighted sum. -/
inductive FlatExpr where
  | atom (a : CPMAtom)
  | numop (name : String) (args : List CPMAtom)
  | wsum (ws : List Int) (xs : List CPMAtom)
deriving DecidableEq, Repr

/-- Consequent of a canonical reified implication (after `reify_rewrite`
and `only_bv_implies`): a Boolean atom, a connective over atoms, or a
comparison of two atoms. -/
inductive ReifCons where
  | rvar (a : CPMAtom)
  | rop (name : String) (args : List CPMAtom)
  | rcomp (name : String) (l r : CPMAtom)
deriving DecidableEq, Repr

/-- A canonical (flat) constraint as dispatched by `_post_constraint`. -/
inductive FlatCon where
  | boolLit (a : CPMAtom)
  | conj (args : List CPMAtom)
  | disj (args : List CPMAtom)
  | impl (b : CPMAtom) (rc : ReifCons)
  | comp (name : String) (lhs : FlatExpr) (rhs : CPMAtom)
  | alldiff (args : List CPMAtom)
deriving DecidableEq, Repr

def msgNotSupported : String := "NotImplementedError: not currently supported by Glasgow Constraint Solver API"

def msgAttrErrArgs : String := "AttributeError: a plain variable has no attribute args"

def msgAttrErrName : String := "AttributeError: a number has no attribute name"

def msgNotImpl : String := "NotImplementedError"

def msgArity : String := "TypeError: wrong number of arguments"

def opSum : String := "sum"

/-- `_post_constraint` of the Glasgow backend
(`glasgowconstraintsolver.py` lines 195-303).

The only fact taken from outside this repository is the shape of the
upstream expression objects: per the spec data model (section 3) a plain
decision variable consists of identity, kind, domain and name only, so the
source's dereference of `lhs.args` on a plain variable (lines 262-270)
fails with an attribute error. -/
def gcsPostConstraint (s : GState) (c : FlatCon) : Except String GState :=
  match c with
  | .boolLit a =>
      let r := gcsSolverVar s a
      .ok (emit r.2 (.postOr [r.1]))
  | .conj args =>
      let r := gcsSolverVars s args
      .ok (emit r.2 (.postAnd r.1))
  | .disj args =>
      let r := gcsSolverVars s args
      .ok (emit r.2 (.postOr r.1))
  | .alldiff args =>
      let r := gcsSolverVars s args
      .ok (emit r.2 (.postAlldifferent r.1))
  | .impl b rc =>
      let rv := gcsSolverVar s b
      match rc with
      | .rvar a =>
          let r := gcsSolverVars s [b, a]
          .ok (emit r.2 (.postImplies r.1))
      | .rop name args =>
          let r := gcsSolverVars rv.2 args
          if name = "and" then .ok (emit r.2 (.postAndIf r.1 rv.1))
          else if name = "or" then .ok (emit r.2 (.postOrIf r.1 rv.1))
          else if name = "->" then .ok (emit r.2 (.postImpliesIf r.1 rv.1))
          else if name = "xor" then .ok (emit r.2 (.postXorIf r.1 rv.1))
          else .error msgNotSupported
      | .rcomp name l r =>
          if name = "==" then
            let h1 := gcsSolverVar rv.2 l
            let h2 := gcsSolverVar h1.2 r
            .ok (emit h2.2 (.postEqualsIf h1.1 h2.1 rv.1))
          else if name = "<=" then
            let h1 := gcsSolverVar rv.2 l
            let h2 := gcsSolverVar h1.2 r
            .ok (emit h2.2 (.postCompareLessIf h1.1 h2.1 rv.1 true))
          else if name = "<" then
            let h1 := gcsSolverVar rv.2 l
            let h2 := gcsSolverVar h1.2 r
            .ok (emit h2.2 (.postCompareLessIf h1.1 h2.1 rv.1 false))
          else if name = ">=" then
            let h1 := gcsSolverVar rv.2 r
            let h2 := gcsSolverVar h1.2 l
            .ok (emit h2.2 (.postCompareLessIf h1.1 h2.1 rv.1 true))
          else if name = ">" then
            let h1 := gcsSolverVar rv.2 r
            let h2 := gcsSolverVar h1.2 l
            .ok (emit h2.2 (.postCompareLessIf h1.1 h2.1 rv.1 false))
          else .error msgNotSupported
  | .comp name lhs rhs =>
      match lhs with
      | .atom a =>
          match a with
          | .num _ =>
              if name = "==" then .error msgAttrErrName else .error msgNotSupported
          | _ =>
              if name = "==" then
                let h1 := gcsSolverVar s a
                let h2 := gcsSolverVar h1.2 rhs
                .ok (emit h2.2 (.postEquals h1.1 h2.1))
              else if name = "!=" ∨ name = "<=" ∨ name = "<" ∨ name = ">=" ∨ name = ">" then
                .error msgAttrErrArgs
              else .error msgNotSupported
      | .numop op args =>
          if name = "==" then
            if op = "abs" then
              match args with
              | [x] =>
                  let h1 := gcsSolverVar s x
                  let h2 := gcsSolverVar h1.2 rhs
                  .ok (emit h2.2 (.postAbs h1.1 h2.1))
              | _ => .error msgArity
            else if op = "mul" ∨ op = "div" ∨ op = "pow" ∨ op = "mod" then
              match args with
              | [x, y] =>
                  let h1 := gcsSolverVar s x
                  let h2 := gcsSolverVar h1.2 y
                  let h3 := gcsSolverVar h2.2 rhs
                  .ok (emit h3.2 (.postArithmetic h1.1 h2.1 h3.1 op))
              | _ => .error msgArity
            else if op = "sub" then
              match args with
              | [x, y] =>
                  let h1 := gcsSolverVar s x
                  let h2 := gcsSolverVar h1.2 y
                  let h3 := gcsSolverVar h2.2 rhs
                  .ok (emit h3.2 (.postArithmetic h1.1 (.negate h2.1) h3.1 opSum))
              | _ => .error msgArity
            else if op = "sum" then
              match args with
              | [x, y] =>
                  let h1 := gcsSolverVar s x
                  let h2 := gcsSolverVar h1.2 y
                  let h3 := gcsSolverVar h2.2 rhs
                  .ok (emit h3.2 (.postArithmetic h1.1 h2.1 h3.1 opSum))
              | _ :: _ :: _ :: _ =>
                  let hs := gcsSolverVars s args
                  let hr := gcsSolverVar hs.2 rhs
                  .ok (emit hr.2 (.postLinearEquality (hs.1 ++ [.negate hr.1])
                        (List.replicate (args.length + 1) 1) 0))
              | _ => .error msgNotImpl
            else .error msgNotImpl
          else .error msgNotSupported
      | .wsum ws xs =>
          if name = "==" then
            let hs := gcsSolverVars s xs
            let hr := gcsSolverVar hs.2 rhs
            .ok (emit hr.2 (.postLinearEquality (hs.1 ++ [.negate hr.1]) (ws ++ [1]) 0))
          else .error msgNotSupported

/-- Exit-status translation of the Glasgow backend's `solve`
(`glasgowconstraintsolver.py` lines 80-84): any nonzero native solution
count becomes FEASIBLE, zero becomes UNSATISFIABLE. -/
def gcsExitMap (solutions : Nat) : ExitStatus :=
  if solutions ≠ 0 then .FEASIBLE else .UNSATISFIABLE

instance exceptDecEq {ε α : Type} [DecidableEq ε] [DecidableEq α] :
    DecidableEq (Except ε α) := fun a b =>
  match a, b with
  | .ok x, .ok y =>
      if h : x = y then .isTrue (by rw [h]) else .isFalse (fun he => by cases he; exact h rfl)
  | .error x, .error y =>
      if h : x = y then .isTrue (by rw [h]) else .isFalse (fun he => by cases he; exact h rfl)
  | .ok _, .error _ => .isFalse (fun he => by cases he)
  | .error _, .ok _ => .isFalse (fun he => by cases he)

def msgTimeout : String := "NotImplementedError: Glasgow Constraint Solver does not currently support timeouts"

/-- Outcome of a call to the Glasgow backend's `solve`: the translated
status (or the raised failure) and whether the native solver was invoked. -/
structure GSolveOutcome where
  result : Except String ExitStatus
  nativeInvoked : Bool
deriving DecidableEq, Repr

/-- `solve` of the Glasgow backend (`glasgowconstraintsolver.py` lines
59-87): a non-trivial time limit fails immediately, before the native
`gcs.solve` call; otherwise the native solver runs and its solution count
is translated. -/
def gcsSolve (timeLimit : Option Int) (solutions : Nat) : GSolveOutcome :=
  match timeLimit with
  | some _ => { result := .error msgTimeout, nativeInvoked := false }
  | none => { result := .ok (gcsExitMap solutions), nativeInvoked := true }

/-- Glasgow session with objective bookkeeping
(`has_objective` / `objective_var`, lines 53-54). -/
structure GSession where
  st : GState
  hasObjective : Bool
  objectiveVar : Option GHandle
deriving DecidableEq, Repr

def gSessionInit : GSession := { st := gInit, hasObjective := false, objectiveVar := none }

/-- Modelled from the spec: `materialize(expr) -> (auxVar, defining
constraints)` (spec section 6) of the upstream flattening pipeline
(`flatten_objective` / `get_or_make_var`), which is not part of this
repository. For a flat numeric expression it yields a fresh auxiliary
variable together with the defining constraint equating the expression to
the variable. -/
def materialize (e : FlatExpr) (freshName : String) (lb ub : Int) : CPMVar × FlatCon :=
  let aux := CPMVar.intV freshName lb ub
  (aux, .comp "==" e (.cvar aux))

/-- `_make_numexpr` of the Glasgow backend (`glasgowconstraintsolver.py`
lines 153-168): numbers and variables are returned directly (as a constant
wrapper resp. their cached handle); any other expression is materialized
into an auxiliary variable whose defining constraint is posted through the
constraint dispatcher. -/
def gcsMakeNumexpr (s : GState) (e : FlatExpr) (freshName : String) (lb ub : Int) :
    Except String (GHandle × GState) :=
  match e with
  | .atom (.num n) => .ok (.constH n, s)
  | .atom a => .ok (gcsSolverVar s a)
  | _ =>
      let m := materialize e freshName lb ub
      match gcsPostConstraint s m.2 with
      | .error msg => .error msg
      | .ok s1 => .ok (bindVar s1 m.1)

/-- `objective` of the Glasgow backend (`glasgowconstraintsolver.py` lines
131-151): convert the (already flat) objective expression, remember the
resulting handle, and emit the native minimise/maximise instruction. -/
def gcsObjective (g : GSession) (e : FlatExpr) (minimize : Bool)
    (freshName : String) (lb ub : Int) : Except String GSession :=
  match gcsMakeNumexpr g.st e freshName lb ub with
  | .error msg => .error msg
  | .ok r =>
      let s2 := emit r.2 (if minimize then .minimise r.1 else .maximise r.1)
      .ok { st := s2, hasObjective := true, objectiveVar := some r.1 }

/-- Native status vocabulary of the MiniZinc compiler/runtime. Modelled
from the spec (section 6): the `minizinc` Python package defining
`minizinc.result.Status` is not part of this repository; the spec's
mapping table lists exactly these tokens. -/
inductive MznNativeStatus where
  | SATISFIED
  | ALL_SOLUTIONS
  | OPTIMAL_SOLUTION
  | UNSATISFIABLE
  | ERROR
  | UNKNOWN
deriving DecidableEq, Repr

/-- `_post_solve` status translation of the MiniZinc backend
(`minizinc.py` lines 204-221). The second component records whether a hard
failure is raised (only for the native ERROR status). -/
def mznPostSolve : MznNativeStatus → ExitStatus × Bool
  | .SATISFIED => (.FEASIBLE, false)
  | .ALL_SOLUTIONS => (.FEASIBLE, false)
  | .OPTIMAL_SOLUTION => (.OPTIMAL, false)
  | .UNSATISFIABLE => (.UNSATISFIABLE, false)
  | .ERROR => (.ERROR, true)
  | .UNKNOWN => (.ERROR, false)

/-- Modelled from the spec: the external solving engine is a black box
consumed via its status vocabulary (spec sections 1 and 6); for Scenario E
it returns the minimum of `a + b` over `a, b` in `[0, 5]`. -/
def scenarioEObjective : Int :=
  ((List.range 6).flatMap (fun a => (List.range 6).map (fun b => (a : Int) + b))).foldl min 10

/-- A cpmpy expression as rendered by the MiniZinc backend's
`_convert_expression` (`minizinc.py` lines 350-439), restricted to the
binary fragment the claims are about. Raw Python numbers and Booleans are
not `Expression` instances; variables and negation views are. -/
inductive MExpr where
  | constI (n : Int)
  | constB (b : Bool)
  | varE (v : CPMVar)
  | negViewE (name : String)
  | cmp (name : String) (a b : MExpr)
  | binop (name : String) (a b : MExpr)
deriving DecidableEq, Repr

/-- Whether a value is an instance of the upstream `Expression` class:
in cpmpy, decision variables (`_NumVarImpl`) and negation views are
`Expression` subclasses (see `minizinc.py` lines 370-371, which
special-case variables precisely because they are `Expression`s); raw
numbers and Booleans are not. -/
def isExprInstance : MExpr → Bool
  | .constI _ => false
  | .constB _ => false
  | _ => true

/-- Session state of the MiniZinc backend: the binding cache mapping
variables to generated names, the accumulated model text (one string per
`add_string` call), and the current solve item (`mzn_txt_solve`). -/
structure MState where
  varmap : List (VKey × String)
  model : List String
  txtSolve : String
deriving DecidableEq, Repr

def preambleStr : String := "% Generated by CPMpy\ninclude \"globals.mzn\";\n\n"

def solveSatisfyStr : String := "solve satisfy;"

/-- Fresh MiniZinc session (`minizinc.py` lines 113-120). -/
def mznInit : MState :=
  { varmap := [], model := [preambleStr], txtSolve := solveSatisfyStr }

/-- Identifier sanitization of the MiniZinc backend (`minizinc.py` line
288): replace comma, dot, space, opening bracket with an underscore and
drop the closing bracket. -/
def sanitizeChar (c : Char) : Option Char :=
  if c = ']' then none
  else if c = ',' ∨ c = '.' ∨ c = ' ' ∨ c = '[' then some '_'
  else some c

def sanitize (s : String) : String := ⟨s.data.filterMap sanitizeChar⟩

/-- Binding of a decision variable in the MiniZinc backend (`minizinc.py`
lines 285-296): return the cached generated name, otherwise sanitize the
variable's name, declare it in the model text and cache it. -/
def mznBindVar (t : MState) (v : CPMVar) : String × MState :=
  match alookup t.varmap (.kvar v) with
  | some nm => (nm, t)
  | none =>
      let nm := sanitize (cpmName v)
      let decl :=
        match v with
        | .boolV _ => "var bool: " ++ nm ++ ";\n"
        | .intV _ lb ub => "var " ++ toString lb ++ ".." ++ toString ub ++ ": " ++ nm ++ ";\n"
      (nm, { varmap := (VKey.kvar v, nm) :: t.varmap,
             model := t.model ++ [decl],
             txtSolve := t.txtSolve })

/-- The infix renaming table of the MiniZinc backend (`minizinc.py` lines
403-408). -/
def mznPrintmap (n : String) : String :=
  if n = "and" then "/\\"
  else if n = "or" then "\\/"
  else if n = "sum" then "+"
  else if n = "sub" then "-"
  else if n = "mul" then "*"
  else if n = "pow" then "^"
  else n

/-- `_convert_expression` of the MiniZinc backend (`minizinc.py` lines
350-439), restricted to atoms, negation views, binary comparisons and
binary operators: atoms resolve through `solver_var` (a negation view is
rendered as a prefixed textual expression over its underlying variable and
never reaches the binding cache itself); for a comparison or a binary
operator each argument is parenthesized exactly when it is an `Expression`
instance, and the operator name goes through the infix renaming table. -/
def mznConvert (t : MState) : MExpr → String × MState
  | .constB b => (if b then "true" else "false", t)
  | .constI n => (toString n, t)
  | .negViewE nm =>
      let r := mznBindVar t (.boolV nm)
      ("not " ++ r.1, r.2)
  | .varE v => mznBindVar t v
  | .cmp name a b =>
      let ra := mznConvert t a
      let rb := mznConvert ra.2 b
      let sa := if isExprInstance a then "(" ++ ra.1 ++ ")" else ra.1
      let sb := if isExprInstance b then "(" ++ rb.1 ++ ")" else rb.1
      (sa ++ " " ++ name ++ " " ++ sb, rb.2)
  | .binop name a b =>
      let ra := mznConvert t a
      let rb := mznConvert ra.2 b
      let sa := if isExprInstance a then "(" ++ ra.1 ++ ")" else ra.1
      let sb := if isExprInstance b then "(" ++ rb.1 ++ ")" else rb.1
      (sa ++ " " ++ mznPrintmap name ++ " " ++ sb, rb.2)

/-- `_post_constraint` of the MiniZinc backend (`minizinc.py` lines
342-348): render the expression and append one constraint line to the
model text. -/
def mznPostCon (t : MState) (e : MExpr) : MState :=
  let r := mznConvert t e
  { r.2 with model := r.2.model ++ ["constraint " ++ r.1 ++ ";\n"] }

/-- `objective` of the MiniZinc backend (`minizinc.py` lines 299-316):
render the objective expression and overwrite the stored solve item; the
expression is embedded textually and nothing is added to the model. -/
def mznObjective (t : MState) (e : MExpr) (minimize : Bool) : MState :=
  let r := mznConvert t e
  { r.2 with txtSolve :=
      (if minimize then "solve minimize " else "solve maximize ") ++ r.1 ++ ";\n" }

/-- One session-level operation on the MiniZinc backend. Solving
(`_pre_solve`, `minizinc.py` lines 126-141) appends the solve item to a
fresh copy of the accumulated model and leaves the session state
unchanged. -/
inductive MznOp where
  | post (e : MExpr)
  | setObj (e : MExpr) (minimize : Bool)
  | bindV (v : CPMVar)
  | doSolve
deriving Repr

def mznStep (t : MState) : MznOp → MState
  | .post e => mznPostCon t e
  | .setObj e m => mznObjective t e m
  | .bindV v => (mznBindVar t v).2
  | .doSolve => t

def mznRun : List MznOp → MState → MState
  | [], t => t
  | op :: rest, t => mznRun rest (mznStep t op)

/-- The program text submitted to the external compiler for one solve: the
accumulated model followed by the solve item, appended to a fresh copy
(`minizinc.py` lines 133-138). -/
def mznProgram (t : MState) : List String := t.model ++ [t.txtSolve]

/-- Whether a model line is a solve statement (starts with the keyword
`solve`). -/
def isSolveStmt (s : String) : Bool :=
  match s.data with
  | 's' :: 'o' :: 'l' :: 'v' :: 'e' :: _ => true
  | _ => false

-- Concrete variables used by the concrete-input theorems
def xIV : CPMVar := .intV "x" 0 5
def yIV : CPMVar := .intV "y" 0 5
def zIV : CPMVar := .intV "z" 0 5
def bBV : CPMVar := .boolV "b"
def aIV : CPMVar := .intV "a" 0 5

def bIV : CPMVar := .intV "b" 0 5

/-- Whether an emitted instruction is the general arithmetic primitive. -/
def isArithInstr : GCSInstr → Bool
  | .postArithmetic _ _ _ _ => true
  | _ => false

/-- MiniZinc session with the Scenario E variables `a`, `b` already bound. -/
def mznAB : MState := (mznBindVar (mznBindVar mznInit aIV).2 bIV).2

/-- The Scenario E objective expression `sum([a, b])` as seen by the
MiniZinc renderer (a 2-ary `sum` operator). -/
def sumAB : MExpr := .binop "sum" (.varE aIV) (.varE bIV)

/-- All accumulated model lines are non-solve statements. -/
def modelOK (t : MState) : Prop := ∀ str ∈ t.model, isSolveStmt str = false

-- ======================================================================
-- Theorems
-- ======================================================================

lemma alookup_cons_self {α β : Type} [DecidableEq α] (k : α) (v : β) (m : List (α × β)) :
    alookup ((k, v) :: m) k = some v := by
  simp [alookup]

lemma alookup_cons_ne {α β : Type} [DecidableEq α] (k k2 : α) (v : β) (m : List (α × β))
    (h : k ≠ k2) : alookup ((k, v) :: m) k2 = alookup m k2 := by
  simp [alookup, h]

lemma alookup_bindVar_view (s : GState) (v : CPMVar) (nm : String) :
    alookup (bindVar s v).2.varmap (.kview nm) = alookup s.varmap (.kview nm) := by
  unfold bindVar
  cases hl : alookup s.varmap (.kvar v) with
  | some h => rfl
  | none =>
      simp only []
      exact alookup_cons_ne _ _ _ _ (by intro hk; cases hk)

lemma alookup_mznBindVar_view (t : MState) (v : CPMVar) (nm : String) :
    alookup (mznBindVar t v).2.varmap (.kview nm) = alookup t.varmap (.kview nm) := by
  unfold mznBindVar
  cases hl : alookup t.varmap (.kvar v) with
  | some h => rfl
  | none =>
      simp only []
      exact alookup_cons_ne _ _ _ _ (by intro hk; cases hk)

lemma txtSolve_mznBindVar (t : MState) (v : CPMVar) :
    (mznBindVar t v).2.txtSolve = t.txtSolve := by
  unfold mznBindVar
  cases hl : alookup t.varmap (.kvar v) with
  | some h => rfl
  | none => rfl

lemma txtSolve_mznConvert : ∀ (e : MExpr) (t : MState),
    (mznConvert t e).2.txtSolve = t.txtSolve := by
  intro e
  induction e with
  | constI n => intro t; rfl
  | constB b => intro t; rfl
  | varE v => intro t; exact txtSolve_mznBindVar t v
  | negViewE nm => intro t; exact txtSolve_mznBindVar t _
  | cmp name a b iha ihb =>
      intro t
      have h2 := ihb (mznConvert t a).2
      have h1 := iha t
      simp only [mznConvert]
      rw [h2, h1]
  | binop name a b iha ihb =>
      intro t
      have h2 := ihb (mznConvert t a).2
      have h1 := iha t
      simp only [mznConvert]
      rw [h2, h1]

lemma string_data_cons (a b : String) (c : Char) (l : List Char) (ha : a.data = c :: l) :
    (a ++ b).data = c :: (l ++ b.data) := by
  rw [String.data_append, ha]
  rfl

lemma isSolveStmt_of_head (s2 : String) (c : Char) (l : List Char)
    (h : s2.data = c :: l) (hc : c ≠ 's') : isSolveStmt s2 = false := by
  unfold isSolveStmt
  rw [h]
  split
  · rename_i heq
    injection heq with h1 _
    exact absurd h1 hc
  · rfl

lemma head_append (a b : String) (c : Char) (hd : ∃ l, a.data = c :: l) :
    ∃ l, (a ++ b).data = c :: l := by
  obtain ⟨l, hl⟩ := hd
  exact ⟨l ++ b.data, string_data_cons a b c l hl⟩

lemma not_solve_headed (a : String) (c : Char) (hc : c ≠ 's') (h : ∃ l, a.data = c :: l) :
    isSolveStmt a = false := by
  obtain ⟨l, hl⟩ := h
  exact isSolveStmt_of_head a c l hl hc

lemma isSolveStmt_solve_prefixed (b : String) (l : List Char)
    (hb : b.data = 's' :: 'o' :: 'l' :: 'v' :: 'e' :: l) : isSolveStmt b = true := by
  unfold isSolveStmt
  rw [hb]
  split
  · rfl
  · rename_i hne
    exact absurd rfl (hne l)

lemma isSolveStmt_constraint (r : String) :
    isSolveStmt ("constraint " ++ r ++ ";\n") = false := by
  apply not_solve_headed _ 'c' (by decide)
  apply head_append
  apply head_append
  exact ⟨"onstraint ".data, rfl⟩

lemma isSolveStmt_boolDecl (nm : String) :
    isSolveStmt ("var bool: " ++ nm ++ ";\n") = false := by
  apply not_solve_headed _ 'v' (by decide)
  apply head_append
  apply head_append
  exact ⟨"ar bool: ".data, rfl⟩

lemma isSolveStmt_intDecl (s1 s2 nm : String) :
    isSolveStmt ("var " ++ s1 ++ ".." ++ s2 ++ ": " ++ nm ++ ";\n") = false := by
  apply not_solve_headed _ 'v' (by decide)
  apply head_append
  apply head_append
  apply head_append
  apply head_append
  apply head_append
  apply head_append
  exact ⟨"ar ".data, rfl⟩

lemma isSolveStmt_solveItem (pre r : String)
    (hpre : pre.data = 's' :: 'o' :: 'l' :: 'v' :: 'e' :: " minimize ".data ∨
            pre.data = 's' :: 'o' :: 'l' :: 'v' :: 'e' :: " maximize ".data) :
    isSolveStmt (pre ++ r ++ ";\n") = true := by
  rcases hpre with hp | hp
  · apply isSolveStmt_solve_prefixed _ ((" minimize ".data ++ r.data) ++ ";\n".data)
    rw [String.data_append, String.data_append, hp]
    rfl
  · apply isSolveStmt_solve_prefixed _ ((" maximize ".data ++ r.data) ++ ";\n".data)
    rw [String.data_append, String.data_append, hp]
    rfl

lemma modelOK_append (t : List String) (d : String)
    (h : ∀ s ∈ t, isSolveStmt s = false) (hd : isSolveStmt d = false) :
    ∀ s ∈ t ++ [d], isSolveStmt s = false := by
  intro s hs
  rcases List.mem_append.mp hs with h1 | h1
  · exact h s h1
  · simp only [List.mem_singleton] at h1
    subst h1
    exact hd

lemma modelOK_mznBindVar (t : MState) (v : CPMVar) (h : modelOK t) :
    modelOK (mznBindVar t v).2 := by
  unfold modelOK mznBindVar
  cases hl : alookup t.varmap (.kvar v) with
  | some nm => exact h
  | none =>
      simp only []
      cases v with
      | boolV n => exact modelOK_append _ _ h (isSolveStmt_boolDecl _)
      | intV n lb ub => exact modelOK_append _ _ h (isSolveStmt_intDecl _ _ _)

lemma modelOK_mznConvert : ∀ (e : MExpr) (t : MState), modelOK t →
    modelOK (mznConvert t e).2 := by
  intro e
  induction e with
  | constI n => intro t h; exact h
  | constB b => intro t h; exact h
  | varE v => intro t h; exact modelOK_mznBindVar t v h
  | negViewE nm => intro t h; exact modelOK_mznBindVar t _ h
  | cmp name a b iha ihb =>
      intro t h
      have h2 := ihb (mznConvert t a).2 (iha t h)
      simpa only [mznConvert] using h2
  | binop name a b iha ihb =>
      intro t h
      have h2 := ihb (mznConvert t a).2 (iha t h)
      simpa only [mznConvert] using h2

lemma inv_step (t : MState) (op : MznOp) (hm : modelOK t)
    (hs : isSolveStmt t.txtSolve = true) :
    modelOK (mznStep t op) ∧ isSolveStmt (mznStep t op).txtSolve = true := by
  cases op with
  | post e =>
      constructor
      · unfold mznStep mznPostCon
        exact modelOK_append _ _ (modelOK_mznConvert e t hm) (isSolveStmt_constraint _)
      · show isSolveStmt (mznPostCon t e).txtSolve = true
        unfold mznPostCon
        simp only []
        rw [txtSolve_mznConvert]
        exact hs
  | setObj e m =>
      constructor
      · unfold mznStep mznObjective
        exact modelOK_mznConvert e t hm
      · show isSolveStmt (mznObjective t e m).txtSolve = true
        unfold mznObjective
        cases m with
        | true => exact isSolveStmt_solveItem _ _ (Or.inl rfl)
        | false => exact isSolveStmt_solveItem _ _ (Or.inr rfl)
  | bindV v =>
      constructor
      · exact modelOK_mznBindVar t v hm
      · show isSolveStmt (mznBindVar t v).2.txtSolve = true
        rw [txtSolve_mznBindVar]
        exact hs
  | doSolve => exact ⟨hm, hs⟩

lemma inv_run : ∀ (ops : List MznOp) (t : MState), modelOK t →
    isSolveStmt t.txtSolve = true →
    modelOK (mznRun ops t) ∧ isSolveStmt (mznRun ops t).txtSolve = true := by
  intro ops
  induction ops with
  | nil => intro t hm hs; exact ⟨hm, hs⟩
  | cons op rest ih =>
      intro t hm hs
      obtain ⟨h1, h2⟩ := inv_step t op hm hs
      exact ih _ h1 h2


/-- Claim C1: for a comparison over plain variables/constants the operators
greater-equal and greater are claimed to be lowered into the compare-less
primitive by swapping the operand order, both directly and under
reification. In the code the reified branch does swap the operands
(`[rhs, lhs]`, lines 243-246), but the direct branch dereferences the
argument list of the plain left-hand variable (`lhs.args[::-1] + [rhs]`,
lines 267-270), which a plain variable does not have, so direct posting of
such a comparison fails instead of emitting the swapped primitive. -/
theorem C1_ge_direct_fails_reified_swaps :
    gcsPostConstraint gInit (.comp ">=" (.atom (.cvar xIV)) (.cvar yIV))
      = .error msgAttrErrArgs
    ∧ gcsPostConstraint gInit (.comp ">" (.atom (.cvar xIV)) (.cvar yIV))
      = .error msgAttrErrArgs
    ∧ (gcsPostConstraint gInit
        (.impl (.cvar bBV) (.rcomp ">=" (.cvar xIV) (.cvar yIV)))).map GState.instrs
      = .ok [.postCompareLessIf (.base 1) (.base 2) (.base 0) true]
    ∧ (gcsPostConstraint gInit
        (.impl (.cvar bBV) (.rcomp ">" (.cvar xIV) (.cvar yIV)))).map GState.instrs
      = .ok [.postCompareLessIf (.base 1) (.base 2) (.base 0) false] := by
  exact ⟨rfl, rfl, rfl, rfl⟩

/-- Claim C2, counterexample: under the API backend a successful solve of
the Scenario E optimization model is reported as FEASIBLE, never OPTIMAL:
the status translation of `solve` maps any nonzero native solution count
to FEASIBLE. -/
theorem C2_api_backend_not_optimal :
    gcsExitMap 1 = ExitStatus.FEASIBLE
    ∧ ExitStatus.FEASIBLE ≠ ExitStatus.OPTIMAL := by
  exact ⟨rfl, by decide⟩

set_option maxRecDepth 4000 in
/-- Claim C2, amended: for Scenario E the DSL backend maps the native
OPTIMAL_SOLUTION token to the unified OPTIMAL status (without raising) and
the optimum objective value is 0, while the API backend reports the
successful solve as FEASIBLE. -/
theorem C2_amended_statuses :
    mznPostSolve .OPTIMAL_SOLUTION = (ExitStatus.OPTIMAL, false)
    ∧ scenarioEObjective = 0
    ∧ gcsExitMap 1 = ExitStatus.FEASIBLE := by
  exact ⟨rfl, by decide, rfl⟩

/-- Claim C3, counterexample: for the non-atomic objective expression
`sum([a, b])` the DSL backend performs no auxiliary-variable
materialization: its `objective` posts no defining constraints (the model
text is unchanged), declares no fresh variable (the binding cache is
unchanged), and stores the textual rendering of the expression itself in
the solve item. -/
theorem C3_dsl_no_materialization :
    (mznObjective mznAB sumAB true).model = mznAB.model
    ∧ (mznObjective mznAB sumAB true).varmap = mznAB.varmap
    ∧ (mznObjective mznAB sumAB true).txtSolve = "solve minimize (a) + (b);\n" := by
  exact ⟨rfl, rfl, rfl⟩

/-- Claim C3, amended: for a non-atomic objective expression the API
backend materializes an auxiliary variable, posts its defining constraint
through the constraint dispatcher, stores the auxiliary handle as the
objective, and the posted defining constraint survives a later objective
re-assignment; the DSL backend instead renders the expression directly
into the solve-item text, posting no defining constraints. -/
theorem C3_amended_objective :
    (gcsObjective gSessionInit (.numop "sum" [.cvar aIV, .cvar bIV]) true "aux" 0 10).map
        (fun g => (g.st.instrs, g.objectiveVar, g.hasObjective))
      = .ok ([.postArithmetic (.base 0) (.base 1) (.base 2) opSum, .minimise (.base 2)],
             some (.base 2), true)
    ∧ ((gcsObjective gSessionInit (.numop "sum" [.cvar aIV, .cvar bIV]) true "aux" 0 10).bind
        (fun g => gcsObjective g (.atom (.cvar aIV)) false "aux2" 0 10)).map
        (fun g => g.st.instrs)
      = .ok [.postArithmetic (.base 0) (.base 1) (.base 2) opSum, .minimise (.base 2),
             .maximise (.base 0)]
    ∧ (mznObjective mznAB sumAB true).model = mznAB.model
    ∧ (mznObjective mznAB sumAB true).txtSolve = "solve minimize (a) + (b);\n" := by
  exact ⟨rfl, rfl, rfl, rfl⟩

/-- Claim C4: binding a negation view never creates a binding-cache entry
for the view itself: under the API backend the underlying variable is
bound and the returned handle is the derived `add_constant(negate(h), 1)`,
which evaluates to `1 - h`; under the DSL backend the point-of-use
conversion binds the underlying variable and returns the prefixed textual
expression; in both backends the cache entry for the view is never
created. -/
theorem C4_negview_uncached : ∀ (nm : String) (s : GState) (t : MState) (asg : Nat → Int),
    (gcsSolverVar s (.negView nm)).1
      = .addConst (.negate (bindVar s (.boolV nm)).1) 1
    ∧ evalGH asg (gcsSolverVar s (.negView nm)).1
      = 1 - evalGH asg (bindVar s (.boolV nm)).1
    ∧ alookup (gcsSolverVar s (.negView nm)).2.varmap (.kview nm)
      = alookup s.varmap (.kview nm)
    ∧ (mznConvert t (.negViewE nm)).1 = "not " ++ (mznBindVar t (.boolV nm)).1
    ∧ alookup (mznConvert t (.negViewE nm)).2.varmap (.kview nm)
      = alookup t.varmap (.kview nm) := by
  intro nm s t asg
  refine ⟨rfl, ?_, ?_, rfl, ?_⟩
  · simp only [gcsSolverVar, evalGH]
    omega
  · simp only [gcsSolverVar]
    exact alookup_bindVar_view s (.boolV nm) nm
  · simp only [mznConvert]
    exact alookup_mznBindVar_view t (.boolV nm) nm

/-- Claim C5: binding the same decision variable twice in one session
returns backend-equal handles and leaves the session state (including the
creation log and the accumulated declarations) unchanged on the second
call, under both backends. -/
theorem C5_binding_idempotent : ∀ (v w : CPMVar) (s : GState) (t : MState),
    ((bindVar (bindVar s v).2 v).1 = (bindVar s v).1
      ∧ (bindVar (bindVar s v).2 v).2 = (bindVar s v).2)
    ∧ ((mznBindVar (mznBindVar t w).2 w).1 = (mznBindVar t w).1
      ∧ (mznBindVar (mznBindVar t w).2 w).2 = (mznBindVar t w).2) := by
  intro v w s t
  constructor
  · cases hl : alookup s.varmap (.kvar v) with
    | some h => constructor <;> simp [bindVar, hl]
    | none => constructor <;> simp [bindVar, hl, alookup_cons_self]
  · cases hl : alookup t.varmap (.kvar w) with
    | some nm => constructor <;> simp [mznBindVar, hl]
    | none => constructor <;> simp [mznBindVar, hl, alookup_cons_self]

/-- Claim C6: the DSL backend's driver maps the native status tokens
exactly per the table: SATISFIED and ALL_SOLUTIONS to FEASIBLE,
OPTIMAL_SOLUTION to OPTIMAL, UNSATISFIABLE to UNSATISFIABLE, ERROR to
ERROR with a hard failure raised, and UNKNOWN to ERROR without raising. -/
theorem C6_status_table :
    mznPostSolve .SATISFIED = (ExitStatus.FEASIBLE, false)
    ∧ mznPostSolve .ALL_SOLUTIONS = (ExitStatus.FEASIBLE, false)
    ∧ mznPostSolve .OPTIMAL_SOLUTION = (ExitStatus.OPTIMAL, false)
    ∧ mznPostSolve .UNSATISFIABLE = (ExitStatus.UNSATISFIABLE, false)
    ∧ mznPostSolve .ERROR = (ExitStatus.ERROR, true)
    ∧ mznPostSolve .UNKNOWN = (ExitStatus.ERROR, false) := by
  exact ⟨rfl, rfl, rfl, rfl, rfl, rfl⟩

/-- Claim C7, counterexample: the equality comparison `abs(x) == y` is not
lowered to the general arithmetic primitive: a dedicated abs primitive is
emitted instead (the `abs` branch precedes the arithmetic branch, lines
274-277). -/
theorem C7_abs_not_arithmetic :
    (gcsPostConstraint gInit
        (.comp "==" (.numop "abs" [.cvar xIV]) (.cvar yIV))).map GState.instrs
      = .ok [.postAbs (.base 0) (.base 1)]
    ∧ isArithInstr (.postAbs (.base 0) (.base 1)) = false := by
  exact ⟨rfl, rfl⟩

/-- Claim C7, amended: an equality comparison whose structured left-hand
side is of kind mul, div, pow or mod is lowered to the single arithmetic
primitive with the expression's kind as the opcode; a left-hand side of
kind abs is lowered to the dedicated abs primitive instead. -/
theorem C7_amended_arith_dispatch :
    (∀ op : String, (op = "mul" ∨ op = "div" ∨ op = "pow" ∨ op = "mod") →
      (gcsPostConstraint gInit
          (.comp "==" (.numop op [.cvar xIV, .cvar yIV]) (.cvar zIV))).map GState.instrs
        = .ok [.postArithmetic (.base 0) (.base 1) (.base 2) op])
    ∧ (gcsPostConstraint gInit
        (.comp "==" (.numop "abs" [.cvar xIV]) (.cvar yIV))).map GState.instrs
      = .ok [.postAbs (.base 0) (.base 1)] := by
  refine ⟨?_, rfl⟩
  rintro op (rfl | rfl | rfl | rfl) <;> rfl

/-- Witness for the amended C7 theorem at the opcode mul. -/
theorem C7_amended_arith_dispatch_witness :
    ("mul" = "mul" ∨ "mul" = "div" ∨ "mul" = "pow" ∨ "mul" = "mod")
    ∧ (gcsPostConstraint gInit
        (.comp "==" (.numop "mul" [.cvar xIV, .cvar yIV]) (.cvar zIV))).map GState.instrs
      = .ok [.postArithmetic (.base 0) (.base 1) (.base 2) "mul"] :=
  ⟨Or.inl rfl, C7_amended_arith_dispatch.1 "mul" (Or.inl rfl)⟩

/-- Claim C8, counterexample: in the DSL backend's rendering of a binary
comparison a plain variable argument is parenthesized: the wrapping test
checks whether the argument is an `Expression` instance, and decision
variables are `Expression` instances, so `x < 5` renders as `(x) < 5`. -/
theorem C8_variable_parenthesized :
    (mznConvert mznInit (.cmp "<" (.varE xIV) (.constI 5))).1 = "(x) < 5"
    ∧ isExprInstance (.varE xIV) = true := by
  exact ⟨rfl, rfl⟩

/-- Claim C8, amended: in the DSL backend's rendering of a binary
comparison or binary operator an argument is wrapped in parentheses if and
only if it is an `Expression` instance, which includes plain decision
variables; only non-`Expression` leaves (numeric and Boolean constants)
are rendered without surrounding parentheses. -/
theorem C8_amended_paren_iff_expression : ∀ (op : String) (n : Int),
    (mznConvert mznInit (.cmp op (.varE xIV) (.constI n))).1
      = "(x) " ++ op ++ " " ++ toString n
    ∧ (mznConvert mznInit (.binop "mul" (.varE xIV) (.constI n))).1
      = "(x) * " ++ toString n
    ∧ (mznConvert mznInit (.cmp op (.binop "sum" (.varE xIV) (.varE yIV)) (.constI n))).1
      = "((x) + (y)) " ++ op ++ " " ++ toString n
    ∧ (mznConvert mznInit (.cmp op (.constB true) (.constI n))).1
      = "true " ++ op ++ " " ++ toString n := by
  intro op n
  exact ⟨rfl, rfl, rfl, rfl⟩

/-- Claim C9: a call to `solve` on the API backend with a non-trivial time
limit fails immediately with an unsupported-operation error, before the
native backend is invoked. -/
theorem C9_time_limit_rejected : ∀ (tl : Int) (solutions : Nat),
    gcsSolve (some tl) solutions
      = { result := .error msgTimeout, nativeInvoked := false } := by
  intro tl solutions
  rfl

/-- Claim C10: for any sequence of session operations on the DSL backend,
solving leaves the stored session state unchanged (the solve item is
appended to a fresh copy of the model), and the generated program contains
exactly one solve statement, in final position. -/
theorem C10_single_solve_statement : ∀ ops : List MznOp,
    mznStep (mznRun ops mznInit) .doSolve = mznRun ops mznInit
    ∧ ((mznProgram (mznRun ops mznInit)).filter isSolveStmt).length = 1
    ∧ (mznProgram (mznRun ops mznInit)).getLast? = some (mznRun ops mznInit).txtSolve
    ∧ isSolveStmt (mznRun ops mznInit).txtSolve = true := by
  intro ops
  have hinit : modelOK mznInit := by
    intro str hstr
    simp only [mznInit, List.mem_singleton] at hstr
    subst hstr
    rfl
  have hsolve : isSolveStmt mznInit.txtSolve = true := rfl
  obtain ⟨hm, hs⟩ := inv_run ops mznInit hinit hsolve
  refine ⟨rfl, ?_, ?_, hs⟩
  · unfold mznProgram
    rw [List.filter_append]
    have hnil : (mznRun ops mznInit).model.filter isSolveStmt = [] :=
      List.filter_eq_nil_iff.mpr (fun a ha => by simp [hm a ha])
    rw [hnil]
    simp [hs]
  · unfold mznProgram
    exact List.getLast?_concat _
